import Mathlib

/-!
Shallow embedding of the skill-badge REST resource
(`src/backend/routes/skillBadge.js`).

The route handlers are modelled as pure functions over an explicit
database state.  JavaScript request values are modelled by `JVal`
(so that JS truthiness, `typeof v === 'boolean'` and `!!v` coercion
are faithful); the PUT body, whose handler uses
`Object.prototype.hasOwnProperty`, is modelled with `Option`-typed
fields at the column types (presence = `some`).  The `updated_at`
column is refreshed by the `trg_skill_badges_updated_at` BEFORE UPDATE
trigger installed by the create-table route; the model applies that
trigger on every row touched by an UPDATE statement.
-/

/-- A JavaScript value as seen by the route handlers after
destructuring the request body (absent fields destructure to
`undefined`). -/
inductive JVal where
  | undef
  | null
  | bool (b : Bool)
  | num (n : Int)
  | str (s : String)
deriving Repr, DecidableEq

/-- JS truthiness: `undefined`, `null`, `false`, `0` and `""` are
falsy, everything else truthy (this is what `if (!x)` and `!!x`
test in the handlers). -/
def JVal.truthy : JVal → Bool
  | .undef => false
  | .null => false
  | .bool b => b
  | .num n => n ≠ 0
  | .str s => s ≠ ""

/-- `typeof v === 'boolean'`, the test of the verify handler. -/
def JVal.isBool : JVal → Bool
  | .bool _ => true
  | _ => false

/-- Decimal digits accumulated to a natural; fails on a non-digit or
on the empty list. -/
def parseDigits : List Char → Option Nat
  | [] => none
  | l => l.foldl (fun acc c =>
      match acc with
      | none => none
      | some n => if c.isDigit then some (n * 10 + (c.toNat - 48)) else none) (some 0)

/-- Parsing of a string bound to a BIGINT placeholder (the database's
bigint input conversion): an optional sign followed by decimal
digits, error otherwise. -/
def parseBigint (s : String) : Option Int :=
  match s.data with
  | '-' :: rest => (parseDigits rest).map (fun n => -(n : Int))
  | '+' :: rest => (parseDigits rest).map (fun n => (n : Int))
  | l => (parseDigits l).map (fun n => (n : Int))

/-- Conversion of a JS parameter bound to a BIGINT placeholder:
numbers pass through, numeric strings are parsed by the database,
anything else raises a statement error. -/
def JVal.toSqlBigint : JVal → Option Int
  | .num n => some n
  | .str s => parseBigint s
  | _ => none

/-- Conversion of a JS parameter bound to a text placeholder. -/
def JVal.toSqlText : JVal → Option String
  | .str s => some s
  | .num n => some (toString n)
  | .bool b => some (toString b)
  | _ => none

/-- One row of the `skill_badges` table.  Timestamps are modelled as
naturals (the trigger writes the statement clock `NOW()`). -/
structure Row where
  id : Nat
  student_id : Int
  badge_name : String
  badge_description : Option String
  verified : Bool
  created_at : Nat
  updated_at : Nat
deriving Repr, DecidableEq

/-- The database state: the table contents, the BIGSERIAL counter
behind `id`, and the statement clock `NOW()`. -/
structure DB where
  rows : List Row
  nextId : Nat
  now : Nat
deriving Repr, DecidableEq

/-- The JSON outcomes the routes produce: `created` is the 201
envelope, `ok`/`okList`/`deleted` the 200 envelopes,
`validationError` the local 400, `notFound` the local 404, and
`storageError` the path through `next(err)` to the generic 500. -/
inductive Resp where
  | created (r : Row)
  | ok (r : Row)
  | okList (rs : List Row)
  | deleted (r : Row)
  | validationError (msg : String)
  | notFound
  | storageError
deriving Repr, DecidableEq

/-- The body of `POST /badges` as the handler destructures it:
each of the four fields is a JS value, `undefined` when absent. -/
structure PostBody where
  student_id : JVal
  badge_name : JVal
  badge_description : JVal
  verified : JVal
deriving Repr, DecidableEq

/-- `POST /badges` (`router.post('/badges')`): presence/truthiness
validation of `student_id` and `badge_name`, then a single INSERT of
`[student_id, badge_name, badge_description || null, !!verified]`
with `RETURNING *`. -/
def createBadge (body : PostBody) (db : DB) : Resp × DB :=
  if !body.student_id.truthy || !body.badge_name.truthy then
    (.validationError "student_id and badge_name are required", db)
  else
    match body.student_id.toSqlBigint, body.badge_name.toSqlText with
    | some sid, some name =>
      let desc : Option String :=
        if body.badge_description.truthy then body.badge_description.toSqlText else none
      let r : Row :=
        { id := db.nextId, student_id := sid, badge_name := name,
          badge_description := desc, verified := body.verified.truthy,
          created_at := db.now, updated_at := db.now }
      (.created r, { db with rows := db.rows ++ [r], nextId := db.nextId + 1 })
    | _, _ => (.storageError, db)

/-- `ORDER BY created_at DESC`: newest first. -/
def rowDesc (a b : Row) : Prop := b.created_at ≤ a.created_at

instance : DecidableRel rowDesc := fun a b => inferInstanceAs (Decidable (_ ≤ _))

instance : IsTotal Row rowDesc := ⟨fun a b => Nat.le_total b.created_at a.created_at⟩

instance : IsTrans Row rowDesc := ⟨fun _ _ _ h1 h2 => Nat.le_trans h2 h1⟩

/-- The result order of `SELECT ... ORDER BY created_at DESC`. -/
def sortByCreatedDesc (l : List Row) : List Row := List.insertionSort rowDesc l

/-- `GET /badges` (`router.get('/badges')`): the `student_id` query
parameter is a string when present; the filtered SELECT runs only
when it is truthy (`if (student_id)`), binding the string to a
BIGINT placeholder. -/
def listBadges (student_id : Option String) (db : DB) : Resp :=
  match student_id with
  | some s =>
    if s ≠ "" then
      match parseBigint s with
      | some n => .okList (sortByCreatedDesc (db.rows.filter (fun r => r.student_id = n)))
      | none => .storageError
    else .okList (sortByCreatedDesc db.rows)
  | none => .okList (sortByCreatedDesc db.rows)

/-- `GET /badges/:id` (`router.get('/badges/:id')`): SELECT by id,
404 on an empty result set, else the first returned row. -/
def getBadge (id : Nat) (db : DB) : Resp :=
  match db.rows.find? (fun r => r.id = id) with
  | some r => .ok r
  | none => .notFound

/-- The body of `PUT /badges/:id`, restricted to the allowed fields
`[badge_name, badge_description, verified, student_id]` the handler
iterates over; a field is `some` exactly when
`Object.prototype.hasOwnProperty.call(req.body, key)` holds.  Values
are at the column types (`badge_description` may be set to NULL). -/
structure PutBody where
  badge_name : Option String
  badge_description : Option (Option String)
  verified : Option Bool
  student_id : Option Int
deriving Repr, DecidableEq

/-- Number of allowed fields present in the body (`fields.length`). -/
def PutBody.numFields (b : PutBody) : Nat :=
  (if b.badge_name.isSome then 1 else 0) +
  (if b.badge_description.isSome then 1 else 0) +
  (if b.verified.isSome then 1 else 0) +
  (if b.student_id.isSome then 1 else 0)

/-- Effect of the generated `UPDATE skill_badges SET ...` on one
matched row: each present field is assigned its supplied value, and
the BEFORE UPDATE trigger overwrites `updated_at` with `NOW()`. -/
def applyPut (b : PutBody) (now : Nat) (r : Row) : Row :=
  { r with
    badge_name := b.badge_name.getD r.badge_name,
    badge_description := b.badge_description.getD r.badge_description,
    verified := b.verified.getD r.verified,
    student_id := b.student_id.getD r.student_id,
    updated_at := now }

/-- `PUT /badges/:id` (`router.put('/badges/:id')`): 400 when no
allowed field is present, otherwise one UPDATE of the present fields
`WHERE id = $idx RETURNING *`; 404 on an empty result set, else the
first returned row. -/
def putBadge (id : Nat) (b : PutBody) (db : DB) : Resp × DB :=
  if b.numFields = 0 then
    (.validationError "No fields provided to update", db)
  else
    match (db.rows.filter (fun r => r.id = id)).map (applyPut b db.now) with
    | [] => (.notFound, db)
    | r :: _ =>
      (.ok r, { db with rows := db.rows.map (fun x => if x.id = id then applyPut b db.now x else x) })

/-- Effect of the verify UPDATE on one matched row: `verified = $1`
when the body's `verified` is a boolean, else the server-side
`verified = NOT verified`; the trigger refreshes `updated_at`. -/
def applyVerify (v : JVal) (now : Nat) (r : Row) : Row :=
  match v with
  | .bool b => { r with verified := b, updated_at := now }
  | _ => { r with verified := !r.verified, updated_at := now }

/-- `PATCH /badges/:id/verify` (`router.patch('/badges/:id/verify')`):
one UPDATE choosing between `verified = $1` (body boolean) and
`verified = NOT verified` (anything else), `RETURNING *`; 404 on an
empty result set. -/
def patchVerify (id : Nat) (v : JVal) (db : DB) : Resp × DB :=
  match (db.rows.filter (fun r => r.id = id)).map (applyVerify v db.now) with
  | [] => (.notFound, db)
  | r :: _ =>
    (.ok r, { db with rows := db.rows.map (fun x => if x.id = id then applyVerify v db.now x else x) })

/-- `DELETE /badges/:id` (`router.delete('/badges/:id')`): one DELETE
`WHERE id = $1 RETURNING *`; 404 on an empty result set, else the
deleted row is echoed back. -/
def deleteBadge (id : Nat) (db : DB) : Resp × DB :=
  match db.rows.find? (fun r => r.id = id) with
  | none => (.notFound, db)
  | some r => (.deleted r, { db with rows := db.rows.filter (fun x => ¬ x.id = id) })

/-- Well-formedness of a database state: the PRIMARY KEY makes ids
unique, BIGSERIAL keeps them below the counter, and every row's
timestamps satisfy `created_at ≤ updated_at ≤ now`. -/
def WF (db : DB) : Prop :=
  (db.rows.map Row.id).Nodup ∧
  ∀ r ∈ db.rows, r.id < db.nextId ∧ r.created_at ≤ r.updated_at ∧ r.updated_at ≤ db.now

instance (db : DB) : Decidable (WF db) := by
  unfold WF; infer_instance

/-! ### Helper lemmas -/

theorem filter_id_singleton {l : List Row} {r : Row} {i : Nat}
    (hn : (l.map Row.id).Nodup) (hr : r ∈ l) (hi : r.id = i) :
    l.filter (fun x => x.id = i) = [r] := by
  induction l with
  | nil => cases hr
  | cons a t ih =>
    rw [List.map_cons, List.nodup_cons] at hn
    rcases List.mem_cons.mp hr with h | h
    · subst h
      rw [List.filter_cons_of_pos (by simp [hi])]
      have ht : t.filter (fun x => decide (x.id = i)) = [] := by
        rw [List.filter_eq_nil_iff]
        intro x hx hxid
        rw [decide_eq_true_eq] at hxid
        exact hn.1 (by rw [hi.trans hxid.symm]; exact List.mem_map_of_mem Row.id hx)
      rw [ht]
    · rw [List.filter_cons_of_neg, ih hn.2 h]
      simp only [decide_eq_true_eq]
      intro hai
      exact hn.1 (by rw [hai, ← hi]; exact List.mem_map_of_mem Row.id h)

theorem putBadge_ok {db : DB} {i : Nat} {b : PutBody} {r : Row}
    (hn : (db.rows.map Row.id).Nodup) (hr : r ∈ db.rows) (hi : r.id = i)
    (hb : ¬ b.numFields = 0) :
    putBadge i b db =
      (.ok (applyPut b db.now r),
       { db with rows := db.rows.map (fun x => if x.id = i then applyPut b db.now r else x) }) := by
  unfold putBadge
  rw [if_neg hb, filter_id_singleton hn hr hi]
  simp only [List.map_cons, List.map_nil]
  have : db.rows.map (fun x => if x.id = i then applyPut b db.now x else x) =
      db.rows.map (fun x => if x.id = i then applyPut b db.now r else x) := by
    apply List.map_congr_left
    intro x hx
    by_cases hxi : x.id = i
    · have hxr : x = r := List.inj_on_of_nodup_map hn hx hr (by rw [hxi, hi])
      simp [hxi, hxr]
    · simp [hxi]
  rw [this]

theorem patchVerify_ok {db : DB} {i : Nat} {v : JVal} {r : Row}
    (hn : (db.rows.map Row.id).Nodup) (hr : r ∈ db.rows) (hi : r.id = i) :
    patchVerify i v db =
      (.ok (applyVerify v db.now r),
       { db with rows := db.rows.map (fun x => if x.id = i then applyVerify v db.now r else x) }) := by
  unfold patchVerify
  rw [filter_id_singleton hn hr hi]
  simp only [List.map_cons, List.map_nil]
  have : db.rows.map (fun x => if x.id = i then applyVerify v db.now x else x) =
      db.rows.map (fun x => if x.id = i then applyVerify v db.now r else x) := by
    apply List.map_congr_left
    intro x hx
    by_cases hxi : x.id = i
    · have hxr : x = r := List.inj_on_of_nodup_map hn hx hr (by rw [hxi, hi])
      simp [hxi, hxr]
    · simp [hxi]
  rw [this]

theorem WF_map {db : DB} (h : WF db) (f : Row → Row)
    (hid : ∀ x, (f x).id = x.id)
    (hts : ∀ x ∈ db.rows, (f x).created_at ≤ (f x).updated_at ∧ (f x).updated_at ≤ db.now) :
    WF { db with rows := db.rows.map f } := by
  obtain ⟨hnodup, hbound⟩ := h
  constructor
  · have : (db.rows.map f).map Row.id = db.rows.map Row.id := by
      rw [List.map_map]
      exact List.map_congr_left (fun x _ => hid x)
    rw [this]
    exact hnodup
  · intro r' hr'
    obtain ⟨x, hx, hfx⟩ := List.mem_map.mp hr'
    subst hfx
    exact ⟨(hid x) ▸ (hbound x hx).1, (hts x hx).1, (hts x hx).2⟩

theorem WF_putBadge {db : DB} (h : WF db) (i : Nat) (b : PutBody) :
    WF (putBadge i b db).2 := by
  unfold putBadge
  split
  · exact h
  · split
    · exact h
    · apply WF_map h
      · intro x
        by_cases hxi : x.id = i <;> simp [hxi, applyPut]
      · intro x hx
        by_cases hxi : x.id = i
        · simp only [hxi, if_pos]
        
          exact ⟨Nat.le_trans ((h.2 x hx).2.1) ((h.2 x hx).2.2), Nat.le_refl _⟩
        · simp only [hxi, if_neg, ite_false]
          exact ⟨(h.2 x hx).2.1, (h.2 x hx).2.2⟩

theorem WF_patchVerify {db : DB} (h : WF db) (i : Nat) (v : JVal) :
    WF (patchVerify i v db).2 := by
  unfold patchVerify
  split
  · exact h
  · apply WF_map h
    · intro x
      by_cases hxi : x.id = i <;> cases v <;> simp [hxi, applyVerify]
    · intro x hx
      by_cases hxi : x.id = i
      · have hts : (applyVerify v db.now x).created_at = x.created_at ∧
            (applyVerify v db.now x).updated_at = db.now := by
          cases v <;> simp [applyVerify]
        simp only [hxi, ite_true, hts.1, hts.2]
        exact ⟨Nat.le_trans ((h.2 x hx).2.1) ((h.2 x hx).2.2), Nat.le_refl _⟩
      · simp only [hxi, ite_false]
        exact ⟨(h.2 x hx).2.1, (h.2 x hx).2.2⟩

theorem WF_createBadge {db : DB} (h : WF db) (body : PostBody) :
    WF (createBadge body db).2 := by
  unfold createBadge
  split
  · exact h
  · split
    · constructor
      · rw [List.map_append, List.map_singleton]
        apply List.Nodup.append h.1 (List.nodup_singleton _)
        intro a ha hb
        rw [List.mem_singleton] at hb
        obtain ⟨x, hx, hxa⟩ := List.mem_map.mp ha
        rw [hb] at hxa
        exact Nat.lt_irrefl _ (hxa ▸ (h.2 x hx).1)
      · intro r' hr'
        rcases List.mem_append.mp hr' with hl | hl
        · exact ⟨Nat.lt_succ_of_lt (h.2 r' hl).1, (h.2 r' hl).2.1, (h.2 r' hl).2.2⟩
        · rw [List.mem_singleton] at hl
          subst hl
          exact ⟨Nat.lt_succ_self _, Nat.le_refl _, Nat.le_refl _⟩
    · exact h

theorem WF_deleteBadge {db : DB} (h : WF db) (i : Nat) :
    WF (deleteBadge i db).2 := by
  unfold deleteBadge
  split
  · exact h
  · constructor
    · exact List.Nodup.sublist (List.Sublist.map Row.id (List.filter_sublist _)) h.1
    · intro r' hr'
      exact h.2 r' (List.mem_of_mem_filter hr')

/-! ### Concrete fixtures for closed instantiations -/

/-- A concrete table row. -/
def sampleRow : Row :=
  { id := 1, student_id := 7, badge_name := "Rust Basics",
    badge_description := some "intro", verified := false,
    created_at := 5, updated_at := 5 }

/-- A concrete database state holding `sampleRow`. -/
def sampleDB : DB := { rows := [sampleRow], nextId := 2, now := 9 }

/-- A PUT body carrying only `badge_name`. -/
def putNameOnly : PutBody :=
  { badge_name := some "Advanced Rust", badge_description := none,
    verified := none, student_id := none }

/-- The empty PUT body (no recognized field present). -/
def putEmpty : PutBody :=
  { badge_name := none, badge_description := none,
    verified := none, student_id := none }

/-- A POST body lacking `student_id`. -/
def postNoStudent : PostBody :=
  { student_id := .undef, badge_name := .str "Rust Basics",
    badge_description := .str "x", verified := .bool true }

/-! ### Claim theorems -/

/-- Claim C1: on an existing badge id, the partial update assigns
exactly the allowed fields present in the body (presence-based: a
present field is assigned its supplied value, an absent field keeps
the row's value), refreshes `updated_at` to the statement clock,
leaves `id` and `created_at` unchanged, and leaves every other row of
the table untouched. -/
theorem put_updates_exactly_present_fields
    {db : DB} {i : Nat} {b : PutBody} {r : Row}
    (hwf : WF db) (hr : r ∈ db.rows) (hi : r.id = i) (hb : 0 < b.numFields) :
    ∃ r',
      putBadge i b db =
        (.ok r', { db with rows := db.rows.map (fun x => if x.id = i then r' else x) }) ∧
      r'.id = r.id ∧ r'.created_at = r.created_at ∧
      r'.badge_name = b.badge_name.getD r.badge_name ∧
      r'.badge_description = b.badge_description.getD r.badge_description ∧
      r'.verified = b.verified.getD r.verified ∧
      r'.student_id = b.student_id.getD r.student_id ∧
      r'.updated_at = db.now :=
  ⟨applyPut b db.now r, putBadge_ok hwf.1 hr hi (Nat.pos_iff_ne_zero.mp hb),
   rfl, rfl, rfl, rfl, rfl, rfl, rfl⟩

/-- Closed instantiation of the C1 theorem: a body holding only
`badge_name` on a one-row table. -/
theorem put_updates_exactly_present_fields_witness :
    WF sampleDB ∧ sampleRow ∈ sampleDB.rows ∧ sampleRow.id = 1 ∧
    0 < putNameOnly.numFields ∧
    (∃ r',
      putBadge 1 putNameOnly sampleDB =
        (.ok r', { sampleDB with rows := sampleDB.rows.map (fun x => if x.id = 1 then r' else x) }) ∧
      r'.id = sampleRow.id ∧ r'.created_at = sampleRow.created_at ∧
      r'.badge_name = putNameOnly.badge_name.getD sampleRow.badge_name ∧
      r'.badge_description = putNameOnly.badge_description.getD sampleRow.badge_description ∧
      r'.verified = putNameOnly.verified.getD sampleRow.verified ∧
      r'.student_id = putNameOnly.student_id.getD sampleRow.student_id ∧
      r'.updated_at = sampleDB.now) :=
  ⟨by decide, by decide, by decide, by decide,
   put_updates_exactly_present_fields (by decide) (by decide) (by decide) (by decide)⟩

/-- Claim C2: on an existing badge id, the verify operation succeeds
and returns the updated row; the stored `verified` becomes exactly
the supplied value when the body's `verified` is a boolean, and the
negation of the row's current value otherwise. -/
theorem verify_sets_or_toggles {db : DB} {i : Nat} {v : JVal} {r : Row}
    (hwf : WF db) (hr : r ∈ db.rows) (hi : r.id = i) :
    ∃ r' db', patchVerify i v db = (.ok r', db') ∧
      (∀ bb : Bool, v = .bool bb → r'.verified = bb) ∧
      (v.isBool = false → r'.verified = !r.verified) ∧
      r' ∈ db'.rows := by
  refine ⟨applyVerify v db.now r, _, patchVerify_ok hwf.1 hr hi, ?_, ?_, ?_⟩
  · intro bb hbb
    subst hbb
    rfl
  · intro hnb
    cases v <;> simp_all [applyVerify, JVal.isBool]
  · have := List.mem_map_of_mem (fun x => if x.id = i then applyVerify v db.now r else x) hr
    simpa [hi] using this

/-- Closed instantiation of the C2 theorem: setting `verified` to the
boolean `true` on a one-row table. -/
theorem verify_sets_or_toggles_witness :
    WF sampleDB ∧ sampleRow ∈ sampleDB.rows ∧ sampleRow.id = 1 ∧
    (∃ r' db', patchVerify 1 (.bool true) sampleDB = (.ok r', db') ∧
      (∀ bb : Bool, JVal.bool true = .bool bb → r'.verified = bb) ∧
      ((JVal.bool true).isBool = false → r'.verified = !sampleRow.verified) ∧
      r' ∈ db'.rows) :=
  ⟨by decide, by decide, by decide,
   verify_sets_or_toggles (by decide) (by decide) (by decide)⟩

/-- Claim C3: a create request whose `student_id` or `badge_name` is
absent or falsy is rejected with the ValidationError response and the
database state is unchanged (no row inserted, no storage call). -/
theorem create_missing_required_rejected {body : PostBody} {db : DB}
    (h : body.student_id.truthy = false ∨ body.badge_name.truthy = false) :
    createBadge body db =
      (.validationError "student_id and badge_name are required", db) := by
  unfold createBadge
  rcases h with h | h <;> simp [h]

/-- Closed instantiation of the C3 theorem: a body lacking
`student_id` while all other fields are supplied. -/
theorem create_missing_required_rejected_witness :
    (postNoStudent.student_id.truthy = false ∨ postNoStudent.badge_name.truthy = false) ∧
    createBadge postNoStudent sampleDB =
      (.validationError "student_id and badge_name are required", sampleDB) :=
  ⟨Or.inl rfl, create_missing_required_rejected (Or.inl rfl)⟩

/-- Claim C7: a partial-update request carrying zero recognized
fields is always rejected with the "no fields provided"
ValidationError and the database state is unchanged (no storage
call, never a no-op success). -/
theorem put_no_fields_rejected {db : DB} {i : Nat} {b : PutBody}
    (h : b.numFields = 0) :
    putBadge i b db = (.validationError "No fields provided to update", db) := by
  unfold putBadge
  rw [if_pos h]

/-- Closed instantiation of the C7 theorem: the empty body on a
one-row table. -/
theorem put_no_fields_rejected_witness :
    putEmpty.numFields = 0 ∧
    putBadge 1 putEmpty sampleDB =
      (.validationError "No fields provided to update", sampleDB) :=
  ⟨rfl, put_no_fields_rejected rfl⟩

/-- Claim C5: on an id matching no stored row, fetch, partial update
(with at least one recognized field), verify and delete all answer
NotFound, derived from the empty result set, with the database state
unchanged and no storage-level error surfaced. -/
theorem missing_id_not_found {db : DB} {i : Nat} (b : PutBody) (v : JVal)
    (h : ∀ r ∈ db.rows, r.id ≠ i) :
    getBadge i db = .notFound ∧
    (0 < b.numFields → putBadge i b db = (.notFound, db)) ∧
    patchVerify i v db = (.notFound, db) ∧
    deleteBadge i db = (.notFound, db) := by
  have hfil : db.rows.filter (fun x => decide (x.id = i)) = [] := by
    rw [List.filter_eq_nil_iff]
    intro x hx
    simp only [decide_eq_true_eq]
    exact h x hx
  have hfind : db.rows.find? (fun x => decide (x.id = i)) = none := by
    rw [List.find?_eq_none]
    intro x hx
    simp only [decide_eq_true_eq]
    exact h x hx
  refine ⟨?_, ?_, ?_, ?_⟩
  · unfold getBadge
    rw [hfind]
  · intro hb
    unfold putBadge
    rw [if_neg (Nat.pos_iff_ne_zero.mp hb), hfil, List.map_nil]
  · unfold patchVerify
    rw [hfil, List.map_nil]
  · unfold deleteBadge
    rw [hfind]

/-- Closed instantiation of the C5 theorem: id 99 on a table whose
only row has id 1. -/
theorem missing_id_not_found_witness :
    (∀ r ∈ sampleDB.rows, r.id ≠ 99) ∧
    (getBadge 99 sampleDB = .notFound ∧
     (0 < putNameOnly.numFields → putBadge 99 putNameOnly sampleDB = (.notFound, sampleDB)) ∧
     patchVerify 99 .undef sampleDB = (.notFound, sampleDB) ∧
     deleteBadge 99 sampleDB = (.notFound, sampleDB)) :=
  ⟨by decide, missing_id_not_found putNameOnly .undef (by decide)⟩

/-- Claim C6: the list operation never errors: with a (truthy,
numeric) `student_id` filter it answers exactly the rows whose
`student_id` matches, ordered by `created_at` descending, and with no
filter it answers every row in the same order (an empty result is the
empty sequence). -/
theorem list_returns_matching_sorted {db : DB} {s : String} {n : Int}
    (hs : parseBigint s = some n) (hne : s ≠ "") :
    (∃ l, listBadges (some s) db = .okList l ∧
       List.Perm l (db.rows.filter (fun r => r.student_id = n)) ∧
       l.Sorted rowDesc) ∧
    (∃ l, listBadges none db = .okList l ∧ List.Perm l db.rows ∧
       l.Sorted rowDesc) := by
  constructor
  · refine ⟨sortByCreatedDesc (db.rows.filter (fun r => r.student_id = n)), ?_, ?_, ?_⟩
    · simp only [listBadges]
      rw [if_pos hne, hs]
    · exact List.perm_insertionSort _ _
    · exact List.sorted_insertionSort _ _
  · exact ⟨_, rfl, List.perm_insertionSort _ _, List.sorted_insertionSort _ _⟩

/-- Closed instantiation of the C6 theorem at the filter string
`"7"`. -/
theorem list_returns_matching_sorted_witness :
    parseBigint "7" = some 7 ∧ ("7" : String) ≠ "" ∧
    ((∃ l, listBadges (some "7") sampleDB = .okList l ∧
       List.Perm l (sampleDB.rows.filter (fun r => r.student_id = 7)) ∧
       l.Sorted rowDesc) ∧
     (∃ l, listBadges none sampleDB = .okList l ∧ List.Perm l sampleDB.rows ∧
       l.Sorted rowDesc)) :=
  ⟨by decide, by decide, list_returns_matching_sorted (by decide) (by decide)⟩

/-- Claim C8: a create request with valid (truthy, storable)
`student_id` and `badge_name` persists one new row and answers it
with the 201 envelope; the stored `verified` is `false` when the
body's `verified` is absent and the supplied literal when the body
carries a boolean. -/
theorem create_persists_with_verified_default
    {body : PostBody} {db : DB} {sid : Int} {name : String}
    (h1 : body.student_id.truthy = true) (h2 : body.badge_name.truthy = true)
    (h3 : body.student_id.toSqlBigint = some sid)
    (h4 : body.badge_name.toSqlText = some name) :
    ∃ r, createBadge body db =
        (.created r, { db with rows := db.rows ++ [r], nextId := db.nextId + 1 }) ∧
      r.student_id = sid ∧ r.badge_name = name ∧
      r.id = db.nextId ∧ r.created_at = db.now ∧ r.updated_at = db.now ∧
      (body.verified = .undef → r.verified = false) ∧
      (∀ bb : Bool, body.verified = .bool bb → r.verified = bb) := by
  unfold createBadge
  rw [h1, h2]
  simp only [Bool.not_true, Bool.or_self, Bool.false_or, Bool.or_false, if_false,
    Bool.false_eq_true, ite_false, h3, h4]
  refine ⟨_, rfl, rfl, rfl, rfl, rfl, rfl, ?_, ?_⟩
  · intro hv
    rw [hv]
    rfl
  · intro bb hv
    rw [hv]
    rfl

/-- Closed instantiation of the C8 theorem: `student_id` 7 and
`badge_name` "Rust Basics", `verified` absent. -/
theorem create_persists_with_verified_default_witness :
    (JVal.num 7).truthy = true ∧ (JVal.str "Rust Basics").truthy = true ∧
    (JVal.num 7).toSqlBigint = some 7 ∧
    (JVal.str "Rust Basics").toSqlText = some "Rust Basics" ∧
    (∃ r, createBadge
        { student_id := .num 7, badge_name := .str "Rust Basics",
          badge_description := .undef, verified := .undef } sampleDB =
        (.created r, { sampleDB with rows := sampleDB.rows ++ [r], nextId := sampleDB.nextId + 1 }) ∧
      r.student_id = 7 ∧ r.badge_name = "Rust Basics" ∧
      r.id = sampleDB.nextId ∧ r.created_at = sampleDB.now ∧ r.updated_at = sampleDB.now ∧
      (JVal.undef = .undef → r.verified = false) ∧
      (∀ bb : Bool, JVal.undef = .bool bb → r.verified = bb)) :=
  ⟨by decide, by decide, by decide, by decide,
   create_persists_with_verified_default (by decide) (by decide) (by decide) (by decide)⟩

/-- Claim C9: on an existing badge id, two immediately successive
verify calls with no `verified` field both succeed and leave the
stored flag equal to its original value (double negation). -/
theorem verify_double_toggle_identity {db : DB} {i : Nat} {r : Row}
    (hwf : WF db) (hr : r ∈ db.rows) (hi : r.id = i) :
    ∃ r₁ db₁ r₂ db₂,
      patchVerify i .undef db = (.ok r₁, db₁) ∧
      patchVerify i .undef db₁ = (.ok r₂, db₂) ∧
      r₁.verified = !r.verified ∧ r₂.verified = r.verified := by
  have h1 := patchVerify_ok (v := .undef) hwf.1 hr hi
  set r₁ := applyVerify .undef db.now r with hr₁
  set db₁ : DB :=
    { db with rows := db.rows.map (fun x => if x.id = i then r₁ else x) } with hdb₁
  have hids : db₁.rows.map Row.id = db.rows.map Row.id := by
    rw [hdb₁]
    rw [List.map_map]
    apply List.map_congr_left
    intro x hx
    by_cases hxi : x.id = i
    · simp only [Function.comp_apply, hxi, ite_true]
      rw [hr₁]
      show r.id = i
      exact hi
    · simp [hxi]
  have hn₁ : (db₁.rows.map Row.id).Nodup := by
    rw [hids]
    exact hwf.1
  have hr₁mem : r₁ ∈ db₁.rows := by
    rw [hdb₁]
    have := List.mem_map_of_mem (fun x => if x.id = i then r₁ else x) hr
    simpa [hi] using this
  have hr₁id : r₁.id = i := by
    rw [hr₁]
    exact hi
  have h2 := patchVerify_ok (v := .undef) hn₁ hr₁mem hr₁id
  refine ⟨r₁, db₁, applyVerify .undef db₁.now r₁, _, h1, h2, rfl, ?_⟩
  show (applyVerify .undef db₁.now r₁).verified = r.verified
  rw [hr₁]
  simp [applyVerify]

/-- Closed instantiation of the C9 theorem on a one-row table. -/
theorem verify_double_toggle_identity_witness :
    WF sampleDB ∧ sampleRow ∈ sampleDB.rows ∧ sampleRow.id = 1 ∧
    (∃ r₁ db₁ r₂ db₂,
      patchVerify 1 .undef sampleDB = (.ok r₁, db₁) ∧
      patchVerify 1 .undef db₁ = (.ok r₂, db₂) ∧
      r₁.verified = !sampleRow.verified ∧ r₂.verified = sampleRow.verified) :=
  ⟨by decide, by decide, by decide,
   verify_double_toggle_identity (by decide) (by decide) (by decide)⟩

/-- Claim C10: a list request whose `student_id` query value is the
empty string is falsy, takes the unfiltered branch, and answers
every row of the table in the unfiltered order, not the empty
matching subset. -/
theorem list_empty_string_unfiltered (db : DB) :
    listBadges (some "") db = listBadges none db ∧
    ∃ l, listBadges (some "") db = .okList l ∧ List.Perm l db.rows := by
  constructor
  · simp only [listBadges]
    rw [if_neg (fun h => h rfl)]
  · refine ⟨sortByCreatedDesc db.rows, ?_, List.perm_insertionSort _ _⟩
    simp only [listBadges]
    rw [if_neg (fun h => h rfl)]

theorem putBadge_rows_created_preserved (db : DB) (i : Nat) (b : PutBody) :
    ∀ x' ∈ (putBadge i b db).2.rows,
      ∃ x ∈ db.rows, x'.id = x.id ∧ x'.created_at = x.created_at := by
  unfold putBadge
  split
  · intro x' hx'
    exact ⟨x', hx', rfl, rfl⟩
  · split
    · intro x' hx'
      exact ⟨x', hx', rfl, rfl⟩
    · intro x' hx'
      obtain ⟨x, hx, hfx⟩ := List.mem_map.mp hx'
      subst hfx
      by_cases hxi : x.id = i
      · exact ⟨x, hx, by simp [hxi, applyPut], by simp [hxi, applyPut]⟩
      · exact ⟨x, hx, by simp [hxi], by simp [hxi]⟩

theorem patchVerify_rows_created_preserved (db : DB) (i : Nat) (v : JVal) :
    ∀ x' ∈ (patchVerify i v db).2.rows,
      ∃ x ∈ db.rows, x'.id = x.id ∧ x'.created_at = x.created_at := by
  unfold patchVerify
  split
  · intro x' hx'
    exact ⟨x', hx', rfl, rfl⟩
  · intro x' hx'
    obtain ⟨x, hx, hfx⟩ := List.mem_map.mp hx'
    subst hfx
    have hav : ∀ y : Row, (applyVerify v db.now y).id = y.id ∧
        (applyVerify v db.now y).created_at = y.created_at := by
      intro y
      cases v <;> simp [applyVerify]
    by_cases hxi : x.id = i
    · exact ⟨x, hx, by simp [hxi, (hav x).1], by simp [hxi, (hav x).2]⟩
    · exact ⟨x, hx, by simp [hxi], by simp [hxi]⟩

theorem deleteBadge_rows_created_preserved (db : DB) (i : Nat) :
    ∀ x' ∈ (deleteBadge i db).2.rows,
      ∃ x ∈ db.rows, x'.id = x.id ∧ x'.created_at = x.created_at := by
  unfold deleteBadge
  split
  · intro x' hx'
    exact ⟨x', hx', rfl, rfl⟩
  · intro x' hx'
    exact ⟨x', List.mem_of_mem_filter hx', rfl, rfl⟩

theorem putBadge_ok_updated {db : DB} (hwf : WF db) {i : Nat} {b : PutBody}
    {r' : Row} {db' : DB} (h : putBadge i b db = (.ok r', db')) :
    r'.updated_at = db.now ∧ r'.created_at ≤ r'.updated_at := by
  unfold putBadge at h
  by_cases hb : b.numFields = 0
  · rw [if_pos hb] at h
    simp at h
  · rw [if_neg hb] at h
    cases hl : (db.rows.filter (fun r => r.id = i)).map (applyPut b db.now) with
    | nil =>
      rw [hl] at h
      simp at h
    | cons r0 tl =>
      rw [hl] at h
      simp only [Prod.mk.injEq, Resp.ok.injEq] at h
      obtain ⟨h1, _⟩ := h
      subst h1
      have hmem : r0 ∈ (db.rows.filter (fun r => r.id = i)).map (applyPut b db.now) := by
        rw [hl]
        exact List.mem_cons_self _ _
      obtain ⟨x, hx, hfx⟩ := List.mem_map.mp hmem
      have hxmem : x ∈ db.rows := List.mem_of_mem_filter hx
      subst hfx
      exact ⟨rfl, Nat.le_trans (hwf.2 x hxmem).2.1 (hwf.2 x hxmem).2.2⟩

theorem patchVerify_ok_updated {db : DB} (hwf : WF db) {i : Nat} {v : JVal}
    {r' : Row} {db' : DB} (h : patchVerify i v db = (.ok r', db')) :
    r'.updated_at = db.now ∧ r'.created_at ≤ r'.updated_at := by
  unfold patchVerify at h
  cases hl : (db.rows.filter (fun r => r.id = i)).map (applyVerify v db.now) with
  | nil =>
    rw [hl] at h
    simp at h
  | cons r0 tl =>
    rw [hl] at h
    simp only [Prod.mk.injEq, Resp.ok.injEq] at h
    obtain ⟨h1, _⟩ := h
    subst h1
    have hmem : r0 ∈ (db.rows.filter (fun r => r.id = i)).map (applyVerify v db.now) := by
      rw [hl]
      exact List.mem_cons_self _ _
    obtain ⟨x, hx, hfx⟩ := List.mem_map.mp hmem
    have hxmem : x ∈ db.rows := List.mem_of_mem_filter hx
    have hav : (applyVerify v db.now x).created_at = x.created_at ∧
        (applyVerify v db.now x).updated_at = db.now := by
      cases v <;> simp [applyVerify]
    subst hfx
    rw [hav.1, hav.2]
    exact ⟨rfl, Nat.le_trans (hwf.2 x hxmem).2.1 (hwf.2 x hxmem).2.2⟩

/-- Claim C4: timestamps are server-side.  Starting from a
well-formed state (ids unique, `created_at ≤ updated_at ≤ now` for
every row), every operation preserves well-formedness; partial
update, verify and delete never change any surviving row's
`created_at`; and a successful partial update or verify always
answers a row whose `updated_at` is the statement clock `NOW()`
(never a client-supplied value) and satisfies
`created_at ≤ updated_at`. -/
theorem timestamps_created_once_updated_server_side
    {db : DB} (hwf : WF db) (body : PostBody) (i : Nat) (b : PutBody) (v : JVal) :
    WF (createBadge body db).2 ∧ WF (putBadge i b db).2 ∧
    WF (patchVerify i v db).2 ∧ WF (deleteBadge i db).2 ∧
    (∀ x' ∈ (putBadge i b db).2.rows,
      ∃ x ∈ db.rows, x'.id = x.id ∧ x'.created_at = x.created_at) ∧
    (∀ x' ∈ (patchVerify i v db).2.rows,
      ∃ x ∈ db.rows, x'.id = x.id ∧ x'.created_at = x.created_at) ∧
    (∀ x' ∈ (deleteBadge i db).2.rows,
      ∃ x ∈ db.rows, x'.id = x.id ∧ x'.created_at = x.created_at) ∧
    (∀ r' db', putBadge i b db = (.ok r', db') →
      r'.updated_at = db.now ∧ r'.created_at ≤ r'.updated_at) ∧
    (∀ r' db', patchVerify i v db = (.ok r', db') →
      r'.updated_at = db.now ∧ r'.created_at ≤ r'.updated_at) :=
  ⟨WF_createBadge hwf body, WF_putBadge hwf i b, WF_patchVerify hwf i v,
   WF_deleteBadge hwf i,
   putBadge_rows_created_preserved db i b,
   patchVerify_rows_created_preserved db i v,
   deleteBadge_rows_created_preserved db i,
   fun _ _ h => putBadge_ok_updated hwf h,
   fun _ _ h => patchVerify_ok_updated hwf h⟩

/-- Closed instantiation of the C4 theorem on a one-row table. -/
theorem timestamps_created_once_updated_server_side_witness :
    WF sampleDB ∧
    (WF (createBadge postNoStudent sampleDB).2 ∧ WF (putBadge 1 putNameOnly sampleDB).2 ∧
     WF (patchVerify 1 .undef sampleDB).2 ∧ WF (deleteBadge 1 sampleDB).2 ∧
     (∀ x' ∈ (putBadge 1 putNameOnly sampleDB).2.rows,
       ∃ x ∈ sampleDB.rows, x'.id = x.id ∧ x'.created_at = x.created_at) ∧
     (∀ x' ∈ (patchVerify 1 .undef sampleDB).2.rows,
       ∃ x ∈ sampleDB.rows, x'.id = x.id ∧ x'.created_at = x.created_at) ∧
     (∀ x' ∈ (deleteBadge 1 sampleDB).2.rows,
       ∃ x ∈ sampleDB.rows, x'.id = x.id ∧ x'.created_at = x.created_at) ∧
     (∀ r' db', putBadge 1 putNameOnly sampleDB = (.ok r', db') →
       r'.updated_at = sampleDB.now ∧ r'.created_at ≤ r'.updated_at) ∧
     (∀ r' db', patchVerify 1 .undef sampleDB = (.ok r', db') →
       r'.updated_at = sampleDB.now ∧ r'.created_at ≤ r'.updated_at)) :=
  ⟨by decide,
   timestamps_created_once_updated_server_side (by decide) postNoStudent 1 putNameOnly .undef⟩
